import Mathlib

/-!
Shallow embedding of the state-management and persistence core of the
browser to-do application in `js/app.js` (classes `Utils`, `TodoItem`,
`StorageService`, `TodoManager`), together with proofs of the
behavioural properties stated in the specification.

Modelling conventions:
* JavaScript strings are lists of characters (`JSStr`); `trim`,
  `toLowerCase` and `includes` are translated character-wise.
* Timestamps (`new Date().toISOString()`) are naturals supplied as an
  explicit `now` parameter: ISO-8601 strings of the same clock compare
  chronologically, so ordering facts transfer.
* `Utils.generateId` is nondeterministic (`Date.now` + `Math.random`),
  so operations that create ids take the fresh id as a parameter.
* The single `localStorage` slot under `CONFIG.STORAGE_KEY` is a
  `Blob` value threaded through the store state; `JSON.parse` failure
  and shape mismatch are the `Blob.corrupt` constructor.
* JavaScript `throw` is modelled by returning `Except.error` together
  with the (unchanged up to that point) state: every store operation
  returns its result and the post-state.
-/

/-- Decidable equality of `Except` values, for evaluating operations on
concrete inputs. -/
instance {ε α : Type} [DecidableEq ε] [DecidableEq α] :
    DecidableEq (Except ε α) := fun a b =>
  match a, b with
  | .error x, .error y =>
    if h : x = y then isTrue (by rw [h])
    else isFalse (fun hh => h (by cases hh; rfl))
  | .error _, .ok _ => isFalse (fun hh => Except.noConfusion hh)
  | .ok _, .error _ => isFalse (fun hh => Except.noConfusion hh)
  | .ok x, .ok y =>
    if h : x = y then isTrue (by rw [h])
    else isFalse (fun hh => h (by cases hh; rfl))

/-- JavaScript strings, modelled as lists of characters. -/
abbrev JSStr := List Char

/-- The whitespace test used by JavaScript `String.prototype.trim`. -/
def isWS (c : Char) : Bool := c.isWhitespace

/-- `String.prototype.trim`: removes leading and trailing whitespace. -/
def jsTrim (s : JSStr) : JSStr :=
  ((s.dropWhile isWS).reverse.dropWhile isWS).reverse

/-- `String.prototype.toLowerCase`, character-wise. -/
def jsToLower (s : JSStr) : JSStr := s.map Char.toLower

/-- Does the first list start with the second?  Auxiliary for `jsIncludes`. -/
def startsWithSub : JSStr → JSStr → Bool
  | _, [] => true
  | [], _ :: _ => false
  | a :: s, b :: t => decide (a = b) && startsWithSub s t

/-- `String.prototype.includes`: substring containment (empty needle matches). -/
def jsIncludes : JSStr → JSStr → Bool
  | [], sub => sub.isEmpty
  | a :: s, sub => startsWithSub (a :: s) sub || jsIncludes s sub

/-- `CONFIG.MAX_TODO_LENGTH` in `app.js`. -/
def MAX_TODO_LENGTH : Nat := 100

/-- The error kinds thrown by the core, one per distinct `throw` message:
validation failures from `Utils.validateTodo` and the missing-id failure
of `TodoManager.updateTodo` / `toggleTodo` / `deleteTodo`. -/
inductive TodoError where
  | emptyInput
  | tooLong
  | notFound
deriving DecidableEq

/-- The message attached to each thrown error in `app.js`. -/
def TodoError.message : TodoError → String
  | .emptyInput => "A tarefa não pode estar vazia."
  | .tooLong => "A tarefa deve ter no máximo 100 caracteres."
  | .notFound => "Tarefa não encontrada."

/-- `Utils.validateTodo`: trims, rejects empty text, rejects text longer
than `MAX_TODO_LENGTH`, and on success returns the trimmed text. -/
def validateTodo (text : JSStr) : Except TodoError JSStr :=
  let trimmed := jsTrim text
  if trimmed.isEmpty then .error .emptyInput
  else if MAX_TODO_LENGTH < trimmed.length then .error .tooLong
  else .ok trimmed

/-- The `TodoItem` entity: `{id, text, completed, createdAt, updatedAt}`. -/
structure TodoItem where
  id : String
  text : JSStr
  completed : Bool
  createdAt : Nat
  updatedAt : Nat
deriving DecidableEq

/-- The `TodoItem` constructor: `id = id || Utils.generateId()`, the text is
trimmed again, `completed` starts `false`, both timestamps are the current
time. -/
def TodoItem.create (text : JSStr) (idArg : Option String) (freshId : String)
    (now : Nat) : TodoItem :=
  { id := idArg.getD freshId
    text := jsTrim text
    completed := false
    createdAt := now
    updatedAt := now }

/-- `TodoItem.toggleComplete`: flips `completed` and refreshes `updatedAt`. -/
def TodoItem.toggleComplete (t : TodoItem) (now : Nat) : TodoItem :=
  { t with completed := !t.completed, updatedAt := now }

/-- `TodoItem.updateText`: validates, throws the validation error on failure,
otherwise stores the trimmed text and refreshes `updatedAt`. -/
def TodoItem.updateText (t : TodoItem) (newTextArg : JSStr) (now : Nat) :
    Except TodoError TodoItem :=
  match validateTodo newTextArg with
  | .error e => .error e
  | .ok v => .ok { t with text := v, updatedAt := now }

/-- A plain stored record as produced by `JSON.parse`: fields other than
`text` may be absent (`undefined` is falsy in the `||` defaults of
`TodoItem.fromJSON`); a record without a `text` string fails to decode and
is part of the corrupt-blob case. -/
structure TodoRecord where
  id : Option String
  text : JSStr
  completed : Option Bool
  createdAt : Option Nat
  updatedAt : Option Nat
deriving DecidableEq

/-- `TodoItem.toJSON`: the plain record with all five fields present. -/
def TodoItem.toJSON (t : TodoItem) : TodoRecord :=
  { id := some t.id
    text := t.text
    completed := some t.completed
    createdAt := some t.createdAt
    updatedAt := some t.updatedAt }

/-- `TodoItem.fromJSON`: runs the constructor on `data.text, data.id`, then
overrides `completed` (default `false`) and the timestamps (default: the
current time) following the `||` defaults in the source. -/
def TodoItem.fromJSON (data : TodoRecord) (freshId : String) (now : Nat) :
    TodoItem :=
  let todo := TodoItem.create data.text data.id freshId now
  { todo with
    completed := data.completed.getD false
    createdAt := data.createdAt.getD now
    updatedAt := data.updatedAt.getD now }

/-- The `localStorage` slot under `CONFIG.STORAGE_KEY`: absent (first run),
a parseable array of records, or a blob on which `JSON.parse` / the
record-shape assumptions of `TodoItem.fromJSON` fail. -/
inductive Blob where
  | absent
  | valid (records : List TodoRecord)
  | corrupt
deriving DecidableEq

/-- Observable outcome of `StorageService.getTodos`: the returned array plus
the number of `console.error` logs and `Utils.showToast` warnings emitted. -/
structure LoadResult where
  todos : List TodoItem
  warnings : Nat
  logs : Nat
deriving DecidableEq

/-- `parsed.map(item => TodoItem.fromJSON(item))`, with a distinct fresh id
available to each decode (used only when a record has no id). -/
def decodeRecords (rs : List TodoRecord) (fresh : Nat → String) (k : Nat)
    (now : Nat) : List TodoItem :=
  match rs with
  | [] => []
  | r :: rest => TodoItem.fromJSON r (fresh k) now :: decodeRecords rest fresh (k + 1) now

/-- `StorageService.getTodos`: absent key → `[]`; parseable blob → decoded
records; unparseable blob → caught exception, one `console.error` log, one
warning toast, and `[]` — it never throws. -/
def StorageService.getTodos (blob : Blob) (fresh : Nat → String) (now : Nat) :
    LoadResult :=
  match blob with
  | .absent => { todos := [], warnings := 0, logs := 0 }
  | .valid rs => { todos := decodeRecords rs fresh 0 now, warnings := 0, logs := 0 }
  | .corrupt => { todos := [], warnings := 1, logs := 1 }

/-- The `TodoManager` state plus the `localStorage` slot it writes through
`StorageService` (modelled as the `storage` field so that operations can
describe their persistence effect). -/
structure TodoManager where
  todos : List TodoItem
  filteredTodos : List TodoItem
  currentFilter : String
  currentSearch : JSStr
  editingTodoId : Option String
  storage : Blob
deriving DecidableEq

/-- `TodoManager.saveTodos` via `StorageService.saveTodos`: serializes the
full collection and overwrites the stored blob. -/
def TodoManager.saveTodos (m : TodoManager) : TodoManager :=
  { m with storage := Blob.valid (m.todos.map TodoItem.toJSON) }

/-- First stage of `TodoManager.applyFilters`: the search filter, skipped
when the current search is empty (the empty string is falsy in
`if (this.currentSearch)`). -/
def searchStage (todos : List TodoItem) (cs : JSStr) : List TodoItem :=
  if cs.isEmpty then todos
  else todos.filter (fun todo => jsIncludes (jsToLower todo.text) cs)

/-- Second stage of `TodoManager.applyFilters`: the `switch` on the current
status filter; `"pending"` and `"completed"` filter, any other value
(including `"all"`) falls through. -/
def statusStage (todos : List TodoItem) (cf : String) : List TodoItem :=
  if cf = "pending" then todos.filter (fun todo => !todo.completed)
  else if cf = "completed" then todos.filter (fun todo => todo.completed)
  else todos

/-- `TodoManager.applyFilters`: the search filter followed by the status
filter, stored into `filteredTodos`. -/
def TodoManager.applyFilters (m : TodoManager) : TodoManager :=
  { m with filteredTodos := statusStage (searchStage m.todos m.currentSearch) m.currentFilter }

/-- In-place mutation of the first task with the given id (the object
returned by `this.todos.find(t => t.id === id)`); `none` when absent. -/
def replaceFirstById (todos : List TodoItem) (id : String)
    (f : TodoItem → TodoItem) : Option (List TodoItem) :=
  match todos with
  | [] => none
  | t :: rest =>
    if t.id = id then some (f t :: rest)
    else (replaceFirstById rest id f).map (fun l => t :: l)

/-- `findIndex` + `splice(index, 1)`: removes the first task with the given
id; `none` when `findIndex` returns `-1`. -/
def removeFirstById (todos : List TodoItem) (id : String) :
    Option (List TodoItem) :=
  match todos with
  | [] => none
  | t :: rest =>
    if t.id = id then some rest
    else (removeFirstById rest id).map (fun l => t :: l)

/-- `TodoManager.addTodo`: validate (throwing leaves the state untouched),
construct the task, `unshift` it, save, re-filter, and return it. -/
def TodoManager.addTodo (m : TodoManager) (text : JSStr) (freshId : String)
    (now : Nat) : Except TodoError TodoItem × TodoManager :=
  match validateTodo text with
  | .error e => (.error e, m)
  | .ok v =>
    let todo := TodoItem.create v none freshId now
    let m1 := { m with todos := todo :: m.todos }
    (.ok todo, m1.saveTodos.applyFilters)

/-- `TodoManager.updateTodo`: find by id (throw `NotFound` if absent),
delegate to `TodoItem.updateText` (its validation throw leaves the state
untouched), then save and re-filter. -/
def TodoManager.updateTodo (m : TodoManager) (id : String) (newTextArg : JSStr)
    (now : Nat) : Except TodoError Unit × TodoManager :=
  match m.todos.find? (fun t => decide (t.id = id)) with
  | none => (.error .notFound, m)
  | some todo =>
    match todo.updateText newTextArg now with
    | .error e => (.error e, m)
    | .ok newTodo =>
      match replaceFirstById m.todos id (fun _ => newTodo) with
      | none => (.error .notFound, m)
      | some todos1 =>
        let m1 := { m with todos := todos1 }
        (.ok (), m1.saveTodos.applyFilters)

/-- `TodoManager.toggleTodo`: find by id (throw `NotFound` if absent),
toggle in place, save, re-filter. -/
def TodoManager.toggleTodo (m : TodoManager) (id : String) (now : Nat) :
    Except TodoError Unit × TodoManager :=
  match replaceFirstById m.todos id (fun t => t.toggleComplete now) with
  | none => (.error .notFound, m)
  | some todos1 =>
    let m1 := { m with todos := todos1 }
    (.ok (), m1.saveTodos.applyFilters)

/-- `TodoManager.deleteTodo`: `findIndex` (throw `NotFound` on `-1`),
`splice` the task out, save, re-filter. -/
def TodoManager.deleteTodo (m : TodoManager) (id : String) :
    Except TodoError Unit × TodoManager :=
  match removeFirstById m.todos id with
  | none => (.error .notFound, m)
  | some todos1 =>
    let m1 := { m with todos := todos1 }
    (.ok (), m1.saveTodos.applyFilters)

/-- `TodoManager.setSearch`: stores `searchTerm.toLowerCase().trim()` and
re-filters. -/
def TodoManager.setSearch (m : TodoManager) (term : JSStr) : TodoManager :=
  ({ m with currentSearch := jsTrim (jsToLower term) }).applyFilters

/-- `TodoManager.setFilter`: stores the status string and re-filters. -/
def TodoManager.setFilter (m : TodoManager) (f : String) : TodoManager :=
  ({ m with currentFilter := f }).applyFilters

/-- The `{total, pending, completed}` triple of `TodoManager.getStats`. -/
structure Stats where
  total : Nat
  pending : Nat
  completed : Nat
deriving DecidableEq

/-- `TodoManager.getStats`: counts over the full backing collection. -/
def TodoManager.getStats (m : TodoManager) : Stats :=
  let total := m.todos.length
  let completed := (m.todos.filter (fun todo => todo.completed)).length
  let pending := total - completed
  { total := total, pending := pending, completed := completed }

/-- `TodoManager.startEditing`. -/
def TodoManager.startEditing (m : TodoManager) (id : String) : TodoManager :=
  { m with editingTodoId := some id }

/-- `TodoManager.stopEditing`. -/
def TodoManager.stopEditing (m : TodoManager) : TodoManager :=
  { m with editingTodoId := none }

/-- A view-state operation: a `setSearch` or a `setFilter` call. -/
inductive ViewOp where
  | search (term : JSStr)
  | filter (f : String)

/-- Apply one view-state operation. -/
def applyViewOp (m : TodoManager) : ViewOp → TodoManager
  | .search t => m.setSearch t
  | .filter f => m.setFilter f

/-- Apply a sequence of `setSearch` / `setFilter` calls. -/
def applyViewOps (m : TodoManager) (ops : List ViewOp) : TodoManager :=
  ops.foldl applyViewOp m

/-- Spec-side search predicate (for the refinement claim about the derived
view): the task text contains the normalized search term as a
case-insensitive substring. -/
def specSearchPred (needle : JSStr) (t : TodoItem) : Bool :=
  jsIncludes (jsToLower t.text) needle

/-- Spec-side status predicate: `pending` keeps uncompleted tasks,
`completed` keeps completed tasks, anything else (in particular `"all"`)
keeps everything. -/
def specStatusPred (status : String) (t : TodoItem) : Bool :=
  if status = "pending" then !t.completed
  else if status = "completed" then t.completed
  else true

/-- Spec-side derived view: filter by search term, then by status. -/
def specVisible (todos : List TodoItem) (needle : JSStr) (status : String) :
    List TodoItem :=
  (todos.filter (specSearchPred needle)).filter (specStatusPred status)

/-- Sample inputs for concrete evaluations. -/
def wsText : JSStr := [' ', ' ', ' ']

/-- A 101-character text. -/
def longText : JSStr := List.replicate 101 'a'

/-- A 100-character text. -/
def okLongText : JSStr := List.replicate 100 'a'

/-- The word `hi`. -/
def hiText : JSStr := ['h', 'i']

/-- ` hi ` with surrounding blanks. -/
def padText : JSStr := [' ', 'h', 'i', ' ']

/-- The word `new`. -/
def newText : JSStr := ['n', 'e', 'w']

/-- The status string `completed`, for concrete view operations. -/
def completedF : String := "completed"

/-- A concrete task id. -/
def idA : String := "a"

/-- A concrete fresh id for newly created tasks. -/
def freshB : String := "b"

/-- A concrete pending task. -/
def sampleTask : TodoItem :=
  { id := idA, text := hiText, completed := false, createdAt := 0, updatedAt := 0 }

/-- A concrete store state holding `sampleTask`, currently editing it. -/
def sampleManager : TodoManager :=
  { todos := [sampleTask]
    filteredTodos := [sampleTask]
    currentFilter := "all"
    currentSearch := []
    editingTodoId := some idA
    storage := Blob.absent }

/-! ### Frame facts about `saveTodos` and `applyFilters` -/

@[simp]
theorem applyFilters_todos (m : TodoManager) : m.applyFilters.todos = m.todos := rfl

@[simp]
theorem applyFilters_currentSearch (m : TodoManager) :
    m.applyFilters.currentSearch = m.currentSearch := rfl

@[simp]
theorem applyFilters_currentFilter (m : TodoManager) :
    m.applyFilters.currentFilter = m.currentFilter := rfl

@[simp]
theorem applyFilters_editingTodoId (m : TodoManager) :
    m.applyFilters.editingTodoId = m.editingTodoId := rfl

@[simp]
theorem applyFilters_storage (m : TodoManager) :
    m.applyFilters.storage = m.storage := rfl

@[simp]
theorem saveTodos_todos (m : TodoManager) : m.saveTodos.todos = m.todos := rfl

@[simp]
theorem saveTodos_currentSearch (m : TodoManager) :
    m.saveTodos.currentSearch = m.currentSearch := rfl

@[simp]
theorem saveTodos_currentFilter (m : TodoManager) :
    m.saveTodos.currentFilter = m.currentFilter := rfl

@[simp]
theorem saveTodos_editingTodoId (m : TodoManager) :
    m.saveTodos.editingTodoId = m.editingTodoId := rfl

@[simp]
theorem saveTodos_filteredTodos (m : TodoManager) :
    m.saveTodos.filteredTodos = m.filteredTodos := rfl

/-! ### `jsTrim` is idempotent -/

theorem dropWhile_self_eq {α : Type} (p : α → Bool) (l : List α) :
    (l.dropWhile p).dropWhile p = l.dropWhile p := by
  induction l with
  | nil => rfl
  | cons a t ih =>
    by_cases h : p a = true
    · simp [List.dropWhile_cons, h, ih]
    · simp [List.dropWhile_cons, h]

theorem dropWhile_eq_self_append {α : Type} (p : α → Bool) (l1 l2 : List α)
    (h : (l1 ++ l2).dropWhile p = l1 ++ l2) : l1.dropWhile p = l1 := by
  cases l1 with
  | nil => rfl
  | cons a t =>
    by_cases ha : p a = true
    · exfalso
      rw [List.cons_append, List.dropWhile_cons, if_pos ha] at h
      have hle := (List.dropWhile_suffix (l := t ++ l2) p).sublist.length_le
      rw [h] at hle
      simp at hle
    · rw [List.dropWhile_cons, if_neg ha]

theorem dropWhile_eq_self_of_prefix {α : Type} (p : α → Bool) {l1 l2 : List α}
    (hp : l1 <+: l2) (h : l2.dropWhile p = l2) : l1.dropWhile p = l1 := by
  obtain ⟨t, rfl⟩ := hp
  exact dropWhile_eq_self_append p l1 t h

theorem trimBack_prefix (u : JSStr) :
    ((u.reverse.dropWhile isWS).reverse) <+: u := by
  have h : (u.reverse.dropWhile isWS) <:+ u.reverse := List.dropWhile_suffix isWS
  have h2 := List.reverse_prefix.mpr h
  rwa [List.reverse_reverse] at h2

theorem jsTrim_idem (s : JSStr) : jsTrim (jsTrim s) = jsTrim s := by
  have hA : (s.dropWhile isWS).dropWhile isWS = s.dropWhile isWS :=
    dropWhile_self_eq isWS s
  have hpre : jsTrim s <+: s.dropWhile isWS := trimBack_prefix (s.dropWhile isWS)
  have hT : (jsTrim s).dropWhile isWS = jsTrim s :=
    dropWhile_eq_self_of_prefix isWS hpre hA
  have hTrev : (jsTrim s).reverse.dropWhile isWS = (jsTrim s).reverse := by
    have hrev : (jsTrim s).reverse = (s.dropWhile isWS).reverse.dropWhile isWS := by
      show (((s.dropWhile isWS).reverse.dropWhile isWS).reverse).reverse = _
      rw [List.reverse_reverse]
    rw [hrev]
    exact dropWhile_self_eq isWS (s.dropWhile isWS).reverse
  show (((jsTrim s).dropWhile isWS).reverse.dropWhile isWS).reverse = jsTrim s
  rw [hT, hTrev, List.reverse_reverse]

/-! ### Validation case analysis -/

theorem validateTodo_empty (t : JSStr) (h : (jsTrim t).isEmpty = true) :
    validateTodo t = .error .emptyInput := by
  simp [validateTodo, h]

theorem validateTodo_long (t : JSStr) (h : ¬ (jsTrim t).isEmpty = true)
    (hl : MAX_TODO_LENGTH < (jsTrim t).length) :
    validateTodo t = .error .tooLong := by
  simp [validateTodo, h, hl]

theorem validateTodo_ok (t : JSStr) (h1 : 1 ≤ (jsTrim t).length)
    (h2 : (jsTrim t).length ≤ MAX_TODO_LENGTH) :
    validateTodo t = .ok (jsTrim t) := by
  have hne : ¬ (jsTrim t).isEmpty = true := by
    rw [List.isEmpty_iff]
    intro hh
    rw [hh] at h1
    simp at h1
  have hnl : ¬ MAX_TODO_LENGTH < (jsTrim t).length := by omega
  simp [validateTodo, hne, hnl]

/-! ### Search and filter helper facts -/

theorem jsIncludes_nil (s : JSStr) : jsIncludes s [] = true := by
  cases s with
  | nil => rfl
  | cons a t => rfl

theorem filter_and_comp (p q : TodoItem → Bool) (l : List TodoItem) :
    (l.filter p).filter q = l.filter (fun a => p a && q a) := by
  induction l with
  | nil => rfl
  | cons a t ih =>
    by_cases hp : p a = true
    · by_cases hq : q a = true
      · simp [List.filter_cons, hp, hq, ih]
      · simp [List.filter_cons, hp, hq, ih]
    · simp [List.filter_cons, hp, ih]

theorem searchStage_eq (todos : List TodoItem) (cs : JSStr) :
    searchStage todos cs = todos.filter (specSearchPred cs) := by
  unfold searchStage
  by_cases hs : cs.isEmpty = true
  · rw [if_pos hs]
    rw [List.isEmpty_iff] at hs
    subst hs
    symm
    exact List.filter_eq_self.mpr (fun a _ => jsIncludes_nil (jsToLower a.text))
  · rw [if_neg hs]
    rfl

theorem statusStage_eq (todos : List TodoItem) (cf : String) :
    statusStage todos cf = todos.filter (specStatusPred cf) := by
  unfold statusStage specStatusPred
  by_cases h1 : cf = "pending"
  · simp [h1]
  · by_cases h2 : cf = "completed"
    · simp [h1, h2]
    · simp [h1, h2]

/-! ### First-match decomposition of the collection -/

theorem firstById_decomp (todos : List TodoItem) (id : String)
    (h : ∃ t ∈ todos, t.id = id) :
    ∃ l1 tk l2, todos = l1 ++ tk :: l2 ∧ tk.id = id ∧
      (∀ u ∈ l1, u.id ≠ id) ∧
      todos.find? (fun t => decide (t.id = id)) = some tk ∧
      (∀ f : TodoItem → TodoItem,
        replaceFirstById todos id f = some (l1 ++ f tk :: l2)) ∧
      removeFirstById todos id = some (l1 ++ l2) := by
  induction todos with
  | nil => simp at h
  | cons a rest ih =>
    by_cases ha : a.id = id
    · refine ⟨[], a, rest, rfl, ha, by simp, ?_, ?_, ?_⟩
      · exact List.find?_cons_of_pos _ (decide_eq_true ha)
      · intro f
        simp [replaceFirstById, ha]
      · simp [removeFirstById, ha]
    · have h' : ∃ t ∈ rest, t.id = id := by
        rcases h with ⟨t, ht, hid⟩
        rcases List.mem_cons.mp ht with h1 | h2
        · exact absurd (h1 ▸ hid) ha
        · exact ⟨t, h2, hid⟩
      obtain ⟨l1, tk, l2, he, htk, hl1, hfind, hrep, hrem⟩ := ih h'
      refine ⟨a :: l1, tk, l2, by rw [he, List.cons_append], htk, ?_, ?_, ?_, ?_⟩
      · intro u hu
        rcases List.mem_cons.mp hu with h1 | h2
        · rw [h1]; exact ha
        · exact hl1 u h2
      · rw [List.find?_cons_of_neg _ (by simp [ha]), hfind]
      · intro f
        simp [replaceFirstById, ha, hrep f]
      · simp [removeFirstById, ha, hrem]

theorem find_append_cons (l1 l2 : List TodoItem) (tk : TodoItem) (id : String)
    (hl1 : ∀ u ∈ l1, u.id ≠ id) (htk : tk.id = id) :
    (l1 ++ tk :: l2).find? (fun t => decide (t.id = id)) = some tk := by
  induction l1 with
  | nil => exact List.find?_cons_of_pos _ (decide_eq_true htk)
  | cons a t ih =>
    have ha : a.id ≠ id := hl1 a (by simp)
    rw [List.cons_append, List.find?_cons_of_neg _ (by simp [ha])]
    exact ih (fun u hu => hl1 u (by simp [hu]))

theorem replaceFirst_append_cons (l1 l2 : List TodoItem) (tk : TodoItem)
    (id : String) (f : TodoItem → TodoItem)
    (hl1 : ∀ u ∈ l1, u.id ≠ id) (htk : tk.id = id) :
    replaceFirstById (l1 ++ tk :: l2) id f = some (l1 ++ f tk :: l2) := by
  induction l1 with
  | nil => simp [replaceFirstById, htk]
  | cons a t ih =>
    have ha : a.id ≠ id := hl1 a (by simp)
    have ih' := ih (fun u hu => hl1 u (by simp [hu]))
    simp [List.cons_append, replaceFirstById, ha, ih']

theorem replaceFirst_eq_none (l : List TodoItem) (id : String)
    (f : TodoItem → TodoItem) (h : ∀ t ∈ l, t.id ≠ id) :
    replaceFirstById l id f = none := by
  induction l with
  | nil => rfl
  | cons a t ih =>
    simp [replaceFirstById, h a (by simp), ih (fun u hu => h u (by simp [hu]))]

theorem removeFirst_eq_none (l : List TodoItem) (id : String)
    (h : ∀ t ∈ l, t.id ≠ id) :
    removeFirstById l id = none := by
  induction l with
  | nil => rfl
  | cons a t ih =>
    simp [removeFirstById, h a (by simp), ih (fun u hu => h u (by simp [hu]))]

/-! ### Claim theorems -/

/-- C1: for every input whose trimmed length is between 1 and 100,
`addTodo` succeeds and returns the created task; the created task's text
is the trimmed input, its completed flag is false, and it is prepended to
the collection with all previous tasks preserved in order after it. -/
theorem c1_add_valid (m : TodoManager) (t : JSStr) (freshId : String)
    (now : Nat) (h1 : 1 ≤ (jsTrim t).length)
    (h2 : (jsTrim t).length ≤ MAX_TODO_LENGTH) :
    ∃ todo : TodoItem,
      (m.addTodo t freshId now).1 = .ok todo ∧
      todo.text = jsTrim t ∧
      todo.completed = false ∧
      (m.addTodo t freshId now).2.todos = todo :: m.todos := by
  have hv : validateTodo t = .ok (jsTrim t) := validateTodo_ok t h1 h2
  refine ⟨TodoItem.create (jsTrim t) none freshId now, ?_, ?_, rfl, ?_⟩
  · simp [TodoManager.addTodo, hv]
  · simp [TodoItem.create, jsTrim_idem]
  · simp [TodoManager.addTodo, hv]

/-- Witness for C1: adding `" hi "` to a concrete store. -/
theorem c1_add_valid_witness :
    1 ≤ (jsTrim padText).length ∧ (jsTrim padText).length ≤ MAX_TODO_LENGTH ∧
    ∃ todo : TodoItem,
      (sampleManager.addTodo padText freshB 3).1 = .ok todo ∧
      todo.text = jsTrim padText ∧
      todo.completed = false ∧
      (sampleManager.addTodo padText freshB 3).2.todos = todo :: sampleManager.todos :=
  ⟨by decide, by decide,
    c1_add_valid sampleManager padText freshB 3 (by decide) (by decide)⟩

/-- C3: `addTodo` fails with `emptyInput` whenever the trimmed text is
empty, fails with `tooLong` exactly when the trimmed length exceeds 100
(so a 100-character text succeeds), and every failure leaves the whole
store state unchanged. -/
theorem c3_add_invalid (m : TodoManager) (t : JSStr) (freshId : String)
    (now : Nat) :
    ((jsTrim t).isEmpty = true →
        m.addTodo t freshId now = (.error .emptyInput, m)) ∧
    ((m.addTodo t freshId now).1 = .error .tooLong ↔
        MAX_TODO_LENGTH < (jsTrim t).length) ∧
    (1 ≤ (jsTrim t).length → (jsTrim t).length ≤ MAX_TODO_LENGTH →
        ∃ todo, (m.addTodo t freshId now).1 = .ok todo) ∧
    (∀ e : TodoError, (m.addTodo t freshId now).1 = .error e →
        (m.addTodo t freshId now).2 = m) := by
  by_cases he : (jsTrim t).isEmpty = true
  · have hv : validateTodo t = .error .emptyInput := validateTodo_empty t he
    have hlen : (jsTrim t).length = 0 := by
      rw [List.isEmpty_iff] at he
      rw [he]
      rfl
    refine ⟨fun _ => by simp [TodoManager.addTodo, hv], ?_, ?_, ?_⟩
    · constructor
      · intro hcontr
        simp [TodoManager.addTodo, hv] at hcontr
      · intro hl
        rw [hlen] at hl
        exact absurd hl (by simp [MAX_TODO_LENGTH])
    · intro hge _
      rw [hlen] at hge
      exact absurd hge (by simp)
    · intro e _
      simp [TodoManager.addTodo, hv]
  · by_cases hl : MAX_TODO_LENGTH < (jsTrim t).length
    · have hv : validateTodo t = .error .tooLong := validateTodo_long t he hl
      refine ⟨fun hcontr => absurd hcontr he, ?_, ?_, ?_⟩
      · exact ⟨fun _ => hl, fun _ => by simp [TodoManager.addTodo, hv]⟩
      · intro _ hle
        exact absurd hl (by omega)
      · intro e _
        simp [TodoManager.addTodo, hv]
    · have h1 : 1 ≤ (jsTrim t).length := by
        rw [List.isEmpty_iff] at he
        cases hx : jsTrim t with
        | nil => exact absurd hx he
        | cons a l => simp
      have hv : validateTodo t = .ok (jsTrim t) :=
        validateTodo_ok t h1 (by omega)
      refine ⟨fun hcontr => absurd hcontr he, ?_, ?_, ?_⟩
      · constructor
        · intro hcontr
          simp [TodoManager.addTodo, hv] at hcontr
        · intro hcontr
          exact absurd hcontr hl
      · intro _ _
        exact ⟨TodoItem.create (jsTrim t) none freshId now,
          by simp [TodoManager.addTodo, hv]⟩
      · intro e hcontr
        simp [TodoManager.addTodo, hv] at hcontr

/-- Witness for C3: the empty-after-trim input `"   "` fails with
`emptyInput` leaving the state unchanged, a 101-character text fails with
`tooLong` leaving the state unchanged, and a 100-character text succeeds. -/
theorem c3_add_invalid_witness :
    sampleManager.addTodo wsText freshB 3 = (.error .emptyInput, sampleManager) ∧
    (sampleManager.addTodo longText freshB 3).1 = .error .tooLong ∧
    (sampleManager.addTodo longText freshB 3).2 = sampleManager ∧
    (∃ todo, (sampleManager.addTodo okLongText freshB 3).1 = .ok todo) := by
  have hlong := c3_add_invalid sampleManager longText freshB 3
  have hfail : (sampleManager.addTodo longText freshB 3).1 = .error .tooLong :=
    hlong.2.1.mpr (by decide)
  exact ⟨(c3_add_invalid sampleManager wsText freshB 3).1 (by decide),
    hfail,
    hlong.2.2.2 .tooLong hfail,
    (c3_add_invalid sampleManager okLongText freshB 3).2.2.1 (by decide) (by decide)⟩

/-- C4: `load` returns the empty collection when no blob is stored, and on
an unparseable blob does not throw: it returns the empty collection with
exactly one logged failure and exactly one warning. -/
theorem c4_load_defensive (fresh : Nat → String) (now : Nat) :
    StorageService.getTodos Blob.absent fresh now
        = { todos := [], warnings := 0, logs := 0 } ∧
    StorageService.getTodos Blob.corrupt fresh now
        = { todos := [], warnings := 1, logs := 1 } :=
  ⟨rfl, rfl⟩

/-- C5: saving a collection whose texts are trimmed and loading it back
yields the same collection, field for field, in the same order. -/
theorem c5_roundtrip (m : TodoManager) (fresh : Nat → String) (now : Nat)
    (h : ∀ t ∈ m.todos, jsTrim t.text = t.text) :
    StorageService.getTodos m.saveTodos.storage fresh now
      = { todos := m.todos, warnings := 0, logs := 0 } := by
  have key : ∀ (C : List TodoItem) (k : Nat), (∀ t ∈ C, jsTrim t.text = t.text) →
      decodeRecords (C.map TodoItem.toJSON) fresh k now = C := by
    intro C
    induction C with
    | nil => intro k _; rfl
    | cons a rest ih =>
      intro k hC
      have ha : jsTrim a.text = a.text := hC a (by simp)
      have hrest : ∀ t ∈ rest, jsTrim t.text = t.text :=
        fun t ht => hC t (by simp [ht])
      simp only [List.map_cons, decodeRecords, ih (k + 1) hrest]
      simp [TodoItem.fromJSON, TodoItem.toJSON, TodoItem.create, ha]
  show StorageService.getTodos (Blob.valid (m.todos.map TodoItem.toJSON)) fresh now = _
  simp [StorageService.getTodos, key m.todos 0 h]

/-- Witness for C5: round-tripping a concrete one-task collection. -/
theorem c5_roundtrip_witness :
    StorageService.getTodos sampleManager.saveTodos.storage (fun _ => freshB) 9
      = { todos := sampleManager.todos, warnings := 0, logs := 0 } :=
  c5_roundtrip sampleManager (fun _ => freshB) 9 (by decide)

/-- C2: after `setSearch` and `setFilter`, the stored derived view equals
the collection filtered by the normalized search term (case-insensitive
substring) and then by the status; the two filters compose with AND
semantics, and the `"all"` status filter is a no-op. -/
theorem c2_derived_view (m : TodoManager) (term : JSStr) (status : String) :
    ((m.setSearch term).setFilter status).filteredTodos
        = specVisible m.todos (jsTrim (jsToLower term)) status ∧
    ((m.setSearch term).setFilter status).filteredTodos
        = m.todos.filter
            (fun t => specSearchPred (jsTrim (jsToLower term)) t &&
              specStatusPred status t) ∧
    (∀ l : List TodoItem, l.filter (specStatusPred "all") = l) := by
  have hmain : ((m.setSearch term).setFilter status).filteredTodos
      = statusStage (searchStage m.todos (jsTrim (jsToLower term))) status := rfl
  refine ⟨?_, ?_, ?_⟩
  · rw [hmain, statusStage_eq, searchStage_eq]
    rfl
  · rw [hmain, statusStage_eq, searchStage_eq, filter_and_comp]
  · intro l
    exact List.filter_eq_self.mpr (fun a _ => by simp [specStatusPred])

/-- C6: the statistics triple satisfies `total = pending + completed` in
every store state, is invariant under any sequence of `setSearch` and
`setFilter` calls, and depends only on the full backing collection. -/
theorem c6_stats (m : TodoManager) (ops : List ViewOp) :
    m.getStats.total = m.getStats.pending + m.getStats.completed ∧
    (applyViewOps m ops).getStats = m.getStats ∧
    (∀ m' : TodoManager, m'.todos = m.todos → m'.getStats = m.getStats) := by
  have hcongr : ∀ m' m'' : TodoManager, m''.todos = m'.todos →
      m''.getStats = m'.getStats := by
    intro m' m'' hh
    simp [TodoManager.getStats, hh]
  refine ⟨?_, ?_, hcongr m⟩
  · have hle := List.length_filter_le (fun todo => todo.completed) m.todos
    simp only [TodoManager.getStats]
    omega
  · induction ops generalizing m with
    | nil => rfl
    | cons op rest ih =>
      have hstep : (applyViewOp m op).getStats = m.getStats := by
        cases op with
        | search t => exact hcongr m (m.setSearch t) rfl
        | filter f => exact hcongr m (m.setFilter f) rfl
      calc (applyViewOps m (op :: rest)).getStats
          = (applyViewOps (applyViewOp m op) rest).getStats := rfl
        _ = (applyViewOp m op).getStats := ih (applyViewOp m op)
        _ = m.getStats := hstep

/-- Witness for C6: concrete statistics identity and invariance under a
concrete search-then-filter sequence. -/
theorem c6_stats_witness :
    sampleManager.getStats.total
        = sampleManager.getStats.pending + sampleManager.getStats.completed ∧
    (applyViewOps sampleManager
        [ViewOp.search hiText, ViewOp.filter completedF]).getStats
        = sampleManager.getStats ∧
    sampleManager.getStats = sampleManager.getStats :=
  ⟨(c6_stats sampleManager []).1,
    (c6_stats sampleManager [ViewOp.search hiText, ViewOp.filter completedF]).2.1,
    (c6_stats sampleManager []).2.2 sampleManager rfl⟩

/-- C7 counterexample: in a concrete state editing task `a`, a successful
`updateTodo` of task `a` does NOT clear the editing slot — the slot still
holds `a`, so the claimed `Editing(id) → Idle` transition on successful
update does not happen in the store itself (the UI adapter performs it by
calling `stopEditing` afterwards). -/
theorem c7_editing_counterexample :
    sampleManager.editingTodoId = some idA ∧
    (sampleManager.updateTodo idA newText 5).1 = .ok () ∧
    (sampleManager.updateTodo idA newText 5).2.editingTodoId = some idA := by
  decide

/-- C7 amended: a successful `updateTodo` targeting the currently edited
id leaves the editing slot unchanged (still `Editing(id)`); the slot
reaches `Idle` only through `stopEditing`, which the UI adapter invokes
after a successful update. -/
theorem c7_editing_amended (m : TodoManager) (id : String) (txt : JSStr)
    (now : Nat) :
    (m.updateTodo id txt now).2.editingTodoId = m.editingTodoId ∧
    m.stopEditing.editingTodoId = none := by
  refine ⟨?_, rfl⟩
  cases hf : m.todos.find? (fun t => decide (t.id = id)) with
  | none => simp [TodoManager.updateTodo, hf]
  | some todo =>
    cases hu : todo.updateText txt now with
    | error e => simp [TodoManager.updateTodo, hf, hu]
    | ok newTodo =>
      cases hr : replaceFirstById m.todos id (fun _ => newTodo) with
      | none => simp [TodoManager.updateTodo, hf, hu, hr]
      | some l => simp [TodoManager.updateTodo, hf, hu, hr]

/-- C8: toggling a present task twice (with the clock strictly advancing
at each call) restores its completed flag to the original value, while
`updatedAt` strictly increases at each of the two toggles. -/
theorem c8_toggle_twice (m : TodoManager) (id : String) (now1 now2 : Nat)
    (tk : TodoItem)
    (hfind : m.todos.find? (fun t => decide (t.id = id)) = some tk)
    (h1 : tk.updatedAt < now1) (h2 : now1 < now2) :
    ∃ m1 m2 tk1 tk2,
      m.toggleTodo id now1 = (.ok (), m1) ∧
      m1.todos.find? (fun t => decide (t.id = id)) = some tk1 ∧
      tk.updatedAt < tk1.updatedAt ∧
      m1.toggleTodo id now2 = (.ok (), m2) ∧
      m2.todos.find? (fun t => decide (t.id = id)) = some tk2 ∧
      tk1.updatedAt < tk2.updatedAt ∧
      tk2.completed = tk.completed ∧
      tk2.updatedAt = now2 := by
  have htk : tk.id = id := by
    have hp := List.find?_some hfind
    simpa using hp
  obtain ⟨l1, tk0, l2, he, htk0, hl1, hfind0, hrep, hrem⟩ :=
    firstById_decomp m.todos id ⟨tk, List.mem_of_find?_eq_some hfind, htk⟩
  have heq : tk0 = tk := by
    rw [hfind] at hfind0
    exact (Option.some.inj hfind0).symm
  subst heq
  have hstepA : m.toggleTodo id now1
      = (.ok (), ({ m with todos := l1 ++ tk0.toggleComplete now1 :: l2 }).saveTodos.applyFilters) := by
    simp [TodoManager.toggleTodo, hrep (fun t => t.toggleComplete now1)]
  have hAtodos :
      (({ m with todos := l1 ++ tk0.toggleComplete now1 :: l2 }).saveTodos.applyFilters).todos
        = l1 ++ tk0.toggleComplete now1 :: l2 := by
    simp
  have hfind1 :
      (({ m with todos := l1 ++ tk0.toggleComplete now1 :: l2 }).saveTodos.applyFilters).todos.find?
          (fun t => decide (t.id = id)) = some (tk0.toggleComplete now1) := by
    rw [hAtodos]
    exact find_append_cons l1 l2 (tk0.toggleComplete now1) id hl1 htk
  have hrep2 : replaceFirstById (l1 ++ tk0.toggleComplete now1 :: l2) id
      (fun t => t.toggleComplete now2)
        = some (l1 ++ (tk0.toggleComplete now1).toggleComplete now2 :: l2) :=
    replaceFirst_append_cons l1 l2 (tk0.toggleComplete now1) id _ hl1 htk
  have hstepB :
      (({ m with todos := l1 ++ tk0.toggleComplete now1 :: l2 }).saveTodos.applyFilters).toggleTodo id now2
        = (.ok (), ({ ({ m with todos := l1 ++ tk0.toggleComplete now1 :: l2 }).saveTodos.applyFilters
            with todos := l1 ++ (tk0.toggleComplete now1).toggleComplete now2 :: l2 }).saveTodos.applyFilters) := by
    simp [TodoManager.toggleTodo, hrep2]
  have hBtodos :
      (({ ({ m with todos := l1 ++ tk0.toggleComplete now1 :: l2 }).saveTodos.applyFilters
          with todos := l1 ++ (tk0.toggleComplete now1).toggleComplete now2 :: l2 }).saveTodos.applyFilters).todos
        = l1 ++ (tk0.toggleComplete now1).toggleComplete now2 :: l2 := by
    simp
  have hfind2 :
      (({ ({ m with todos := l1 ++ tk0.toggleComplete now1 :: l2 }).saveTodos.applyFilters
          with todos := l1 ++ (tk0.toggleComplete now1).toggleComplete now2 :: l2 }).saveTodos.applyFilters).todos.find?
        (fun t => decide (t.id = id))
          = some ((tk0.toggleComplete now1).toggleComplete now2) := by
    rw [hBtodos]
    exact find_append_cons l1 l2 ((tk0.toggleComplete now1).toggleComplete now2) id hl1 htk
  exact ⟨_, _, _, _, hstepA, hfind1, h1, hstepB, hfind2, h2,
    Bool.not_not tk0.completed, rfl⟩

/-- Witness for C8: toggling the concrete pending task twice at times 1
and 2. -/
theorem c8_toggle_twice_witness :
    ∃ m1 m2 tk1 tk2,
      sampleManager.toggleTodo idA 1 = (.ok (), m1) ∧
      m1.todos.find? (fun t => decide (t.id = idA)) = some tk1 ∧
      sampleTask.updatedAt < tk1.updatedAt ∧
      m1.toggleTodo idA 2 = (.ok (), m2) ∧
      m2.todos.find? (fun t => decide (t.id = idA)) = some tk2 ∧
      tk1.updatedAt < tk2.updatedAt ∧
      tk2.completed = sampleTask.completed ∧
      tk2.updatedAt = 2 :=
  c8_toggle_twice sampleManager idA 1 2 sampleTask (by decide) (by decide)
    (by decide)

/-- C9: for an id not in the collection, `updateTodo`, `toggleTodo` and
`deleteTodo` all fail with `notFound` and leave the whole state (collection,
view state and stored blob) unchanged; and after a successful delete of a
present id (ids being unique), the remaining tasks keep their relative
order and a second delete of the same id fails with `notFound` leaving the
state unchanged. -/
theorem c9_missing_id (m : TodoManager) (id : String) (txt : JSStr)
    (now : Nat) (hnd : (m.todos.map TodoItem.id).Nodup) :
    ((∀ t ∈ m.todos, t.id ≠ id) →
        m.updateTodo id txt now = (.error .notFound, m) ∧
        m.toggleTodo id now = (.error .notFound, m) ∧
        m.deleteTodo id = (.error .notFound, m)) ∧
    (∀ m1 : TodoManager, m.deleteTodo id = (.ok (), m1) →
        (∃ l1 tk l2, m.todos = l1 ++ tk :: l2 ∧ tk.id = id ∧
          m1.todos = l1 ++ l2) ∧
        m1.deleteTodo id = (.error .notFound, m1)) := by
  constructor
  · intro habs
    have hfind : m.todos.find? (fun t => decide (t.id = id)) = none :=
      List.find?_eq_none.mpr (fun x hx => by simp [habs x hx])
    refine ⟨by simp [TodoManager.updateTodo, hfind], ?_, ?_⟩
    · simp [TodoManager.toggleTodo, replaceFirst_eq_none m.todos id _ habs]
    · simp [TodoManager.deleteTodo, removeFirst_eq_none m.todos id habs]
  · intro m1 hdel
    have hex : ∃ t ∈ m.todos, t.id = id := by
      by_contra hc
      push_neg at hc
      have hnone : removeFirstById m.todos id = none :=
        removeFirst_eq_none m.todos id hc
      have hud : m.deleteTodo id = (.error .notFound, m) := by
        simp [TodoManager.deleteTodo, hnone]
      rw [hud] at hdel
      exact Except.noConfusion (congrArg Prod.fst hdel)
    obtain ⟨l1, tk, l2, he, htk, hl1, hfind, hrep, hrem⟩ :=
      firstById_decomp m.todos id hex
    have hdel' : m.deleteTodo id
        = (.ok (), ({ m with todos := l1 ++ l2 }).saveTodos.applyFilters) := by
      simp [TodoManager.deleteTodo, hrem]
    have hm1 : m1 = ({ m with todos := l1 ++ l2 }).saveTodos.applyFilters := by
      rw [hdel'] at hdel
      exact (congrArg Prod.snd hdel).symm
    have hm1todos : m1.todos = l1 ++ l2 := by
      rw [hm1]
      simp
    have hnd2 : (l1.map TodoItem.id ++ tk.id :: l2.map TodoItem.id).Nodup := by
      rw [he] at hnd
      simpa using hnd
    have hnotin : tk.id ∉ l2.map TodoItem.id :=
      (List.nodup_cons.mp hnd2.of_append_right).1
    have hl2 : ∀ t ∈ l2, t.id ≠ id := by
      intro t ht hop
      apply hnotin
      rw [htk, ← hop]
      exact List.mem_map_of_mem TodoItem.id ht
    have hall : ∀ t ∈ l1 ++ l2, t.id ≠ id := by
      intro t ht
      rcases List.mem_append.mp ht with hmm | hmm
      · exact hl1 t hmm
      · exact hl2 t hmm
    have hnone1 : removeFirstById m1.todos id = none := by
      rw [hm1todos]
      exact removeFirst_eq_none _ _ hall
    exact ⟨⟨l1, tk, l2, he, htk, hm1todos⟩,
      by simp [TodoManager.deleteTodo, hnone1]⟩

/-- Witness for C9: a missing id fails all three operations on a concrete
state, and deleting the only task then deleting it again fails the second
time. -/
theorem c9_missing_id_witness :
    sampleManager.updateTodo freshB hiText 0 = (.error .notFound, sampleManager) ∧
    sampleManager.toggleTodo freshB 0 = (.error .notFound, sampleManager) ∧
    sampleManager.deleteTodo freshB = (.error .notFound, sampleManager) ∧
    ((sampleManager.deleteTodo idA).2.deleteTodo idA)
        = (.error .notFound, (sampleManager.deleteTodo idA).2) := by
  have h1 := (c9_missing_id sampleManager freshB hiText 0 (by decide)).1 (by decide)
  have h2 := (c9_missing_id sampleManager idA hiText 0 (by decide)).2
    ((sampleManager.deleteTodo idA).2) (by decide)
  exact ⟨h1.1, h1.2.1, h1.2.2, h2.2⟩

/-- C10: a successful toggle of a present id changes only that task's
`completed` and `updatedAt`: its id, text and `createdAt`, every other
task, the collection's order and length, and the current search term and
status filter are unchanged. -/
theorem c10_toggle_frame (m : TodoManager) (id : String) (now : Nat)
    (h : ∃ t ∈ m.todos, t.id = id) :
    ∃ l1 tk l2, m.todos = l1 ++ tk :: l2 ∧ tk.id = id ∧
      (m.toggleTodo id now).1 = .ok () ∧
      (m.toggleTodo id now).2.todos = l1 ++ tk.toggleComplete now :: l2 ∧
      (tk.toggleComplete now).completed = !tk.completed ∧
      (tk.toggleComplete now).updatedAt = now ∧
      (tk.toggleComplete now).id = tk.id ∧
      (tk.toggleComplete now).text = tk.text ∧
      (tk.toggleComplete now).createdAt = tk.createdAt ∧
      (m.toggleTodo id now).2.todos.length = m.todos.length ∧
      (m.toggleTodo id now).2.currentSearch = m.currentSearch ∧
      (m.toggleTodo id now).2.currentFilter = m.currentFilter := by
  obtain ⟨l1, tk, l2, he, htk, hl1, hfind, hrep, hrem⟩ :=
    firstById_decomp m.todos id h
  have hstep : m.toggleTodo id now
      = (.ok (), ({ m with todos := l1 ++ tk.toggleComplete now :: l2 }).saveTodos.applyFilters) := by
    simp [TodoManager.toggleTodo, hrep (fun t => t.toggleComplete now)]
  refine ⟨l1, tk, l2, he, htk, ?_, ?_, rfl, rfl, rfl, rfl, rfl, ?_, ?_, ?_⟩
  · rw [hstep]
  · rw [hstep]
    simp
  · rw [hstep, he]
    simp [List.length_append]
  · rw [hstep]
    simp
  · rw [hstep]
    simp

/-- Witness for C10: toggling the concrete task at time 4. -/
theorem c10_toggle_frame_witness :
    ∃ l1 tk l2, sampleManager.todos = l1 ++ tk :: l2 ∧ tk.id = idA ∧
      (sampleManager.toggleTodo idA 4).1 = .ok () ∧
      (sampleManager.toggleTodo idA 4).2.todos
          = l1 ++ tk.toggleComplete 4 :: l2 ∧
      (tk.toggleComplete 4).completed = !tk.completed ∧
      (tk.toggleComplete 4).updatedAt = 4 ∧
      (tk.toggleComplete 4).id = tk.id ∧
      (tk.toggleComplete 4).text = tk.text ∧
      (tk.toggleComplete 4).createdAt = tk.createdAt ∧
      (sampleManager.toggleTodo idA 4).2.todos.length
          = sampleManager.todos.length ∧
      (sampleManager.toggleTodo idA 4).2.currentSearch
          = sampleManager.currentSearch ∧
      (sampleManager.toggleTodo idA 4).2.currentFilter
          = sampleManager.currentFilter :=
  c10_toggle_frame sampleManager idA 4 (by decide)
